import Mathlib

/-!
Verification development for the ClickHouse store of a passive-DNS
aggregator (source: store_clickhouse.go).  The SQL statements that the Go
code issues against ClickHouse are shallowly embedded as Lean functions
over explicit table contents (lists of rows); the control flow of the
stage-and-commit pipeline is embedded as a step-trace function over an
oracle of per-statement outcomes.
-/

namespace BroPdns

/-- Modelled from the spec: the Reversible Key Indexer `Reverse` lives in a
repository file outside store_clickhouse.go; per the spec it reverses the
character sequence of a string and is its own inverse. -/
def Reverse (s : String) : String := ⟨s.data.reverse⟩

theorem reverse_reverse (s : String) : Reverse (Reverse s) = s := by
  cases s with
  | mk data => simp [Reverse]

/-- Discriminator of the `individual` table: Enum8 with values Q and A. -/
inductive Which
  | Q
  | A
deriving DecidableEq

/-- Row of the permanent `tuples` table (also the shape of a `tuples_temp`
staging row): query/type/answer keys plus ttl, first, last, count.  In the
permanent table the last four columns hold aggregate-function state
(anyLast, min, max, sum); a state for any of these combinators is itself a
value of the column type, so one row shape serves both tables. -/
structure TupleRow where
  query : String
  type : String
  answer : String
  ttl : Nat
  first : Nat
  last : Nat
  count : Nat
deriving DecidableEq

/-- Row of the permanent `individual` table (also an `individual_temp`
staging row): which/value keys plus first, last, count. -/
structure IndRow where
  which : Which
  value : String
  first : Nat
  last : Nat
  count : Nat
deriving DecidableEq

/-- Result row of the merging tuple queries (FindTuples, LikeTuples):
those SELECTs do not return the ttl column. -/
structure TupleQRes where
  query : String
  type : String
  answer : String
  first : Nat
  last : Nat
  count : Nat
deriving DecidableEq

/-- Result row of the individual queries (FindIndividual, LikeIndividual). -/
structure IndQRes where
  which : Which
  value : String
  first : Nat
  last : Nat
  count : Nat
deriving DecidableEq

/-- Addition of UInt64 column values: ClickHouse sumState/sumMerge over a
UInt64 column wraps modulo 2^64. -/
def addU64 (a b : Nat) : Nat := (a + b) % 2 ^ 64

/-- Fold of sumState/sumMerge over the count column of a group. -/
def sumCounts (l : List Nat) : Nat := l.foldl addU64 0

/-- Fold of minState/minMerge over a DateTime column of a group. -/
def minOf : List Nat → Nat
  | [] => 0
  | x :: xs => xs.foldl Nat.min x

/-- Fold of maxState/maxMerge over a DateTime column of a group. -/
def maxOf : List Nat → Nat
  | [] => 0
  | x :: xs => xs.foldl Nat.max x

/-- Fold of anyLastState over the ttl column of a group: the last value in
read order. -/
def lastOf : List Nat → Nat
  | [] => 0
  | [x] => x
  | _ :: x :: xs => lastOf (x :: xs)

/-- Distinct keys occurring in a list, as GROUP BY produces them (one group
per distinct key; we keep the last occurrence of each key). -/
def dedupKeys {κ : Type} [DecidableEq κ] : List κ → List κ
  | [] => []
  | k :: ks => if k ∈ ks then dedupKeys ks else k :: dedupKeys ks

theorem mem_dedupKeys {κ : Type} [DecidableEq κ] (a : κ) :
    ∀ l : List κ, a ∈ dedupKeys l ↔ a ∈ l := by
  intro l
  induction l with
  | nil => simp [dedupKeys]
  | cons k ks ih =>
    by_cases hk : k ∈ ks
    · simp only [dedupKeys, if_pos hk, List.mem_cons, ih]
      constructor
      · exact Or.inr
      · rintro (rfl | h)
        · exact hk
        · exact h
    · simp [dedupKeys, if_neg hk, ih]

theorem nodup_dedupKeys {κ : Type} [DecidableEq κ] :
    ∀ l : List κ, (dedupKeys l).Nodup := by
  intro l
  induction l with
  | nil => simp [dedupKeys]
  | cons k ks ih =>
    by_cases hk : k ∈ ks
    · simpa [dedupKeys, if_pos hk] using ih
    · simp only [dedupKeys, if_neg hk]
      exact List.Nodup.cons (fun h => hk ((mem_dedupKeys k ks).mp h)) ih

/-- Filtering a mapped list filters on the preimage. -/
theorem filter_map_comm {κ ρ : Type} (g : κ → ρ) (p : ρ → Bool) :
    ∀ l : List κ, (l.map g).filter p = (l.filter (fun k => p (g k))).map g := by
  intro l
  induction l with
  | nil => rfl
  | cons k ks ih =>
    by_cases h : p (g k)
    · simp [List.filter, h, ih]
    · simp [List.filter, h, ih]

/-- On a duplicate-free list that contains k, filtering for k yields [k]. -/
theorem nodup_filter_eq_singleton {κ : Type} [DecidableEq κ] (k : κ) :
    ∀ l : List κ, l.Nodup → k ∈ l →
      l.filter (fun x => decide (x = k)) = [k] := by
  intro l
  induction l with
  | nil => intro _ h; cases h
  | cons a as ih =>
    intro hnd hmem
    rcases List.mem_cons.mp hmem with rfl | hmem
    · have hnot : k ∉ as := (List.nodup_cons.mp hnd).1
      have : as.filter (fun x => decide (x = k)) = [] := by
        apply List.filter_eq_nil_iff.mpr
        intro b hb
        simp only [decide_eq_true_eq]
        intro hbk
        exact hnot (hbk ▸ hb)
      simp [List.filter, this]
    · have hne : a ≠ k := by
        rintro rfl
        exact (List.nodup_cons.mp hnd).1 hmem
      have := ih (List.nodup_cons.mp hnd).2 hmem
      simp [List.filter, hne, this]

/-- Key of a tuples row: the GROUP BY columns (query, type, answer). -/
def tupleKey (r : TupleRow) : String × String × String := (r.query, r.type, r.answer)

/-- Key of an individual row: the GROUP BY columns (which, value). -/
def indKey (r : IndRow) : Which × String := (r.which, r.value)

/-- One output row of the merge insert
`INSERT INTO tuples ... SELECT query, type, answer, anyLastState(ttl),
minState(first), maxState(last), sumState(count) from tuples_temp
group by query, type, answer` for the group of staged rows g with key k. -/
def mergeTupleGroup (k : String × String × String) (g : List TupleRow) : TupleRow :=
  { query := k.1, type := k.2.1, answer := k.2.2,
    ttl := lastOf (g.map TupleRow.ttl),
    first := minOf (g.map TupleRow.first),
    last := maxOf (g.map TupleRow.last),
    count := sumCounts (g.map TupleRow.count) }

/-- Rows produced by the tuple merge insert of CHStore.Update from the
staged tuples_temp contents. -/
def tupleMergeRows (stage : List TupleRow) : List TupleRow :=
  (dedupKeys (stage.map tupleKey)).map
    (fun k => mergeTupleGroup k (stage.filter (fun r => decide (tupleKey r = k))))

/-- One output row of the merge insert
`INSERT INTO individual (which, value, first, last, count) SELECT which,
value, minState(first), maxState(last), sumState(count) from
individual_temp group by which, value` for the group g with key k; there is
no ttl column. -/
def mergeIndGroup (k : Which × String) (g : List IndRow) : IndRow :=
  { which := k.1, value := k.2,
    first := minOf (g.map IndRow.first),
    last := maxOf (g.map IndRow.last),
    count := sumCounts (g.map IndRow.count) }

/-- Rows produced by the individual merge insert of CHStore.Update from the
staged individual_temp contents. -/
def indMergeRows (stage : List IndRow) : List IndRow :=
  (dedupKeys (stage.map indKey)).map
    (fun k => mergeIndGroup k (stage.filter (fun r => decide (indKey r = k))))

/-- Byte-wise lexicographic comparison of character lists, as ClickHouse
compares String columns in ORDER BY. -/
def charListLe : List Char → List Char → Bool
  | [], _ => true
  | _ :: _, [] => false
  | a :: as, b :: bs =>
    if a.toNat < b.toNat then true
    else if b.toNat < a.toNat then false
    else charListLe as bs

/-- Lexicographic string comparison used to model SQL ORDER BY. -/
def strLe (a b : String) : Bool := charListLe a.data b.data

theorem charListLe_total : ∀ as bs : List Char,
    charListLe as bs = true ∨ charListLe bs as = true := by
  intro as
  induction as with
  | nil => intro bs; left; rfl
  | cons a as ih =>
    intro bs
    cases bs with
    | nil => right; rfl
    | cons b bs =>
      rcases Nat.lt_trichotomy a.toNat b.toNat with h | h | h
      · left; simp [charListLe, h]
      · have hba : ¬ b.toNat < a.toNat := by omega
        have hab : ¬ a.toNat < b.toNat := by omega
        rcases ih bs with htail | htail
        · left; simp [charListLe, hab, hba, htail]
        · right; simp [charListLe, hab, hba, htail]
      · right; simp [charListLe, h]

theorem strLe_total (a b : String) : strLe a b = true ∨ strLe b a = true :=
  charListLe_total a.data b.data

/-- Comparator for ORDER BY query, answer on merged tuple results. -/
def tupleQLe (a b : TupleQRes) : Bool :=
  if a.query = b.query then strLe a.answer b.answer else strLe a.query b.query

/-- Comparator for (query, answer) order on raw tuples rows. -/
def tupleRowLe (a b : TupleRow) : Bool :=
  if a.query = b.query then strLe a.answer b.answer else strLe a.query b.query

/-- Comparator for ORDER BY value on merged individual results. -/
def indQLe (a b : IndQRes) : Bool := strLe a.value b.value

theorem tupleQLe_total (a b : TupleQRes) : tupleQLe a b = true ∨ tupleQLe b a = true := by
  unfold tupleQLe
  by_cases h : a.query = b.query
  · simp only [h, if_pos rfl, if_pos h.symm]
    exact strLe_total a.answer b.answer
  · have h' : ¬ b.query = a.query := fun hba => h hba.symm
    simp only [if_neg h, if_neg h']
    exact strLe_total a.query b.query

theorem indQLe_total (a b : IndQRes) : indQLe a b = true ∨ indQLe b a = true :=
  strLe_total a.value b.value

/-- Ordered insertion, the building block of the sort that models ORDER BY. -/
def insertLe {ρ : Type} (le : ρ → ρ → Bool) (x : ρ) : List ρ → List ρ
  | [] => [x]
  | y :: ys => if le x y then x :: y :: ys else y :: insertLe le x ys

/-- Insertion sort modelling the ORDER BY clause of a SELECT. -/
def sortLe {ρ : Type} (le : ρ → ρ → Bool) : List ρ → List ρ
  | [] => []
  | x :: xs => insertLe le x (sortLe le xs)

/-- Boolean check that every adjacent pair of a list is le-ordered. -/
def chainLe {ρ : Type} (le : ρ → ρ → Bool) : List ρ → Bool
  | [] => true
  | [_] => true
  | a :: b :: t => le a b && chainLe le (b :: t)

theorem length_insertLe {ρ : Type} (le : ρ → ρ → Bool) (x : ρ) :
    ∀ l : List ρ, (insertLe le x l).length = l.length + 1 := by
  intro l
  induction l with
  | nil => rfl
  | cons y ys ih =>
    by_cases h : le x y
    · simp [insertLe, h]
    · simp [insertLe, h, ih]

theorem length_sortLe {ρ : Type} (le : ρ → ρ → Bool) :
    ∀ l : List ρ, (sortLe le l).length = l.length := by
  intro l
  induction l with
  | nil => rfl
  | cons x xs ih => simp [sortLe, length_insertLe, ih]

theorem chainLe_insertLe {ρ : Type} (le : ρ → ρ → Bool)
    (total : ∀ a b, le a b = true ∨ le b a = true) (x : ρ) :
    ∀ l : List ρ, chainLe le l = true → chainLe le (insertLe le x l) = true := by
  intro l
  induction l with
  | nil => intro _; rfl
  | cons y ys ih =>
    intro hchain
    by_cases hxy : le x y
    · simp [insertLe, hxy, chainLe, hchain]
    · have hyx : le y x = true := (total x y).resolve_left (fun h => hxy h)
      have htail : chainLe le ys = true := by
        cases ys with
        | nil => rfl
        | cons z zs =>
          simp only [chainLe, Bool.and_eq_true] at hchain
          exact hchain.2
      have hins := ih htail
      simp only [insertLe, if_neg hxy]
      cases ys with
      | nil => simp [insertLe, chainLe, hyx]
      | cons z zs =>
        have hyz : le y z = true := by
          simp only [chainLe, Bool.and_eq_true] at hchain
          exact hchain.1
        by_cases hxz : le x z
        · simp [insertLe, hxz, chainLe, hyx] at hins ⊢
          exact hins
        · simp only [insertLe, if_neg hxz] at hins ⊢
          simp [chainLe, hyz] at hins ⊢
          exact hins

theorem chainLe_sortLe {ρ : Type} (le : ρ → ρ → Bool)
    (total : ∀ a b, le a b = true ∨ le b a = true) :
    ∀ l : List ρ, chainLe le (sortLe le l) = true := by
  intro l
  induction l with
  | nil => rfl
  | cons x xs ih => exact chainLe_insertLe le total x (sortLe le xs) ih

/-- Modelled from the spec: reverseQuery (repository code outside
store_clickhouse.go) reverses the query field of every tuple result row
back to caller-visible form, on TupleRow rows. -/
def reverseQueryRows (l : List TupleRow) : List TupleRow :=
  l.map (fun r => { r with query := Reverse r.query })

/-- Modelled from the spec: reverseQuery on merged tuple result rows. -/
def reverseQueryRes (l : List TupleQRes) : List TupleQRes :=
  l.map (fun r => { r with query := Reverse r.query })

/-- Modelled from the spec: reverseValue (repository code outside
store_clickhouse.go) reverses stored keys back to caller-visible form;
per the spec only Query-typed values are stored reversed, Answer values
are stored in natural order. -/
def reverseValueRes (l : List IndQRes) : List IndQRes :=
  l.map (fun r => if r.which = Which.Q then { r with value := Reverse r.value } else r)

/-- Merged result row of the tuple SELECTs for the group g with key k:
minMerge(first), maxMerge(last), sumMerge(count); ttl is not selected. -/
def mergeTupleQGroup (k : String × String × String) (g : List TupleRow) : TupleQRes :=
  { query := k.1, type := k.2.1, answer := k.2.2,
    first := minOf (g.map TupleRow.first),
    last := maxOf (g.map TupleRow.last),
    count := sumCounts (g.map TupleRow.count) }

/-- GROUP BY query, type, answer with the merge combinators, as in the
FindTuples and LikeTuples SELECTs. -/
def tupleQGroup (rows : List TupleRow) : List TupleQRes :=
  (dedupKeys (rows.map tupleKey)).map
    (fun k => mergeTupleQGroup k (rows.filter (fun r => decide (tupleKey r = k))))

/-- Merged result row of the individual SELECTs for the group g with key k. -/
def mergeIndQGroup (k : Which × String) (g : List IndRow) : IndQRes :=
  { which := k.1, value := k.2,
    first := minOf (g.map IndRow.first),
    last := maxOf (g.map IndRow.last),
    count := sumCounts (g.map IndRow.count) }

/-- GROUP BY which, value with the merge combinators, as in the
FindIndividual and LikeIndividual SELECTs. -/
def indQGroup (rows : List IndRow) : List IndQRes :=
  (dedupKeys (rows.map indKey)).map
    (fun k => mergeIndQGroup k (rows.filter (fun r => decide (indKey r = k))))

/-- CHStore.FindQueryTuples: reverses the input, runs
`SELECT * FROM tuples WHERE query = ?` (no GROUP BY, no ORDER BY, so rows
come back in table order), then reverseQuery on the results. -/
def FindQueryTuples (tuples : List TupleRow) (query : String) : List TupleRow :=
  reverseQueryRows (tuples.filter (fun r => decide (r.query = Reverse query)))

/-- CHStore.FindTuples: `SELECT query, type, answer, minMerge(first),
maxMerge(last), sumMerge(count) from tuples WHERE query = ? OR answer = ?
group by query, type, answer ORDER BY query, answer` with arguments
(Reverse query, query), then reverseQuery on the results. -/
def FindTuples (tuples : List TupleRow) (query : String) : List TupleQRes :=
  reverseQueryRes (sortLe tupleQLe (tupleQGroup
    (tuples.filter (fun r => decide (r.query = Reverse query ∨ r.answer = query)))))

/-- CHStore.LikeTuples: same SELECT with `query like ? OR answer like ?`
and arguments (Reverse query ++ percent, query ++ percent), i.e. prefix
matches on the stored columns. -/
def LikeTuples (tuples : List TupleRow) (query : String) : List TupleQRes :=
  reverseQueryRes (sortLe tupleQLe (tupleQGroup
    (tuples.filter (fun r =>
      (Reverse query).isPrefixOf r.query || query.isPrefixOf r.answer))))

/-- Bidirectional tuple lookup as the spec sentence words it: the reversed
input is matched against both the query column and the answer column.  To
be compared with FindTuples, which is translated from the source. -/
def FindTuplesBothReversed (tuples : List TupleRow) (query : String) : List TupleQRes :=
  reverseQueryRes (sortLe tupleQLe (tupleQGroup
    (tuples.filter (fun r =>
      decide (r.query = Reverse query ∨ r.answer = Reverse query)))))

/-- CHStore.FindIndividual: `SELECT which, value, minMerge(first),
maxMerge(last), sumMerge(count) from individual WHERE (which='A' AND
value = ?) OR (which='Q' AND value = ?) group by which, value ORDER BY
value` with arguments (value, Reverse value), then reverseValue. -/
def FindIndividual (individual : List IndRow) (value : String) : List IndQRes :=
  reverseValueRes (sortLe indQLe (indQGroup
    (individual.filter (fun r =>
      decide ((r.which = Which.A ∧ r.value = value) ∨
              (r.which = Which.Q ∧ r.value = Reverse value))))))

/-- CHStore.LikeIndividual: same SELECT with `value like ?` in both
branches and arguments (value ++ percent, Reverse value ++ percent). -/
def LikeIndividual (individual : List IndRow) (value : String) : List IndQRes :=
  reverseValueRes (sortLe indQLe (indQGroup
    (individual.filter (fun r =>
      (r.which = Which.A && value.isPrefixOf r.value) ||
      (r.which = Which.Q && (Reverse value).isPrefixOf r.value)))))

/-- Statements CHStore.Update executes, in source order: the two
best-effort staging drops, the two staging CREATEs, the two SendJSON bulk
loads, and the two merge INSERT-SELECTs. -/
inductive UStep
  | dropT
  | dropI
  | createT
  | createI
  | loadT
  | mergeT
  | loadI
  | mergeI
deriving DecidableEq

/-- Outcome oracle for one run of CHStore.Update: whether each statement
the run may execute succeeds.  The two drop outcomes are recorded because
the source discards their errors. -/
structure UOut where
  dropTOk : Bool
  dropIOk : Bool
  createTOk : Bool
  createIOk : Bool
  loadTOk : Bool
  mergeTOk : Bool
  loadIOk : Bool
  mergeIOk : Bool
deriving DecidableEq

/-- Control flow of CHStore.Update as a trace of executed statements plus
the error result: drops first with errors ignored, then each subsequent
statement executes only if all earlier checked statements succeeded, and
the first failure returns the wrapped stage-naming error.  The deferred
cleanup at the end of the source function is commented out, so no step
follows mergeI. -/
def updateRun (o : UOut) : List UStep × Option String :=
  if o.createTOk = false then
    ([UStep.dropT, UStep.dropI, UStep.createT],
     some "CHStore.Update failed to create temporary tuples table")
  else if o.createIOk = false then
    ([UStep.dropT, UStep.dropI, UStep.createT, UStep.createI],
     some "CHStore.Update failed to create temporary individual table")
  else if o.loadTOk = false then
    ([UStep.dropT, UStep.dropI, UStep.createT, UStep.createI, UStep.loadT],
     some "CHStore.Update tuples failed")
  else if o.mergeTOk = false then
    ([UStep.dropT, UStep.dropI, UStep.createT, UStep.createI, UStep.loadT, UStep.mergeT],
     some "CHStore.Update failed to insert into tuples")
  else if o.loadIOk = false then
    ([UStep.dropT, UStep.dropI, UStep.createT, UStep.createI, UStep.loadT, UStep.mergeT,
      UStep.loadI],
     some "CHStore.Update individual failed")
  else if o.mergeIOk = false then
    ([UStep.dropT, UStep.dropI, UStep.createT, UStep.createI, UStep.loadT, UStep.mergeT,
      UStep.loadI, UStep.mergeI],
     some "CHStore.Update failed to insert into individual")
  else
    ([UStep.dropT, UStep.dropI, UStep.createT, UStep.createI, UStep.loadT, UStep.mergeT,
      UStep.loadI, UStep.mergeI],
     none)

/-- Whether every checked statement of the run succeeds. -/
def allOk (o : UOut) : Bool :=
  o.createTOk && o.createIOk && o.loadTOk && o.mergeTOk && o.loadIOk && o.mergeIOk

/-- Contents of the three permanent tables of the store. -/
structure StoreState where
  tuples : List TupleRow
  individual : List IndRow
  filenames : List String
deriving DecidableEq

/-- CHStore.DeleteOld: returns 0 and the fixed error, touching nothing. -/
def DeleteOld (s : StoreState) (days : Int) : StoreState × Int × Option String :=
  (s, 0, some "clickhouse doesn't support delete")

/-- CHStore.Close executes `return s.Close()`: every call immediately
makes the same call again.  The Nat argument is a step budget; a `none`
result means the call has not returned within that budget. -/
def Close (s : StoreState) : Nat → Option Unit
  | 0 => none
  | n + 1 => Close s n

/-- CHStore.IsLogIndexed: `SELECT filename FROM filenames WHERE
filename=?` scanned into a string.  dbErr models a lookup failure other
than sql.ErrNoRows; with no failure, an absent row is sql.ErrNoRows.  The
source maps ErrNoRows to (false, nil), any other error to (false, err),
and a found row to (true, nil). -/
def IsLogIndexed (filenames : List String) (dbErr : Option String)
    (filename : String) : Bool × Option String :=
  match dbErr with
  | some e => (false, some e)
  | none =>
    match filenames.find? (fun fn => decide (fn = filename)) with
    | none => (false, none)
    | some _ => (true, none)

/-- Result of one call to CHStore.SendJSON's HTTP POST: either a
transport-level failure (error returned, no response object) or a
response with a status code and a readable body. -/
inductive PostResult
  | transportFailure (e : String)
  | response (status : Nat) (body : String)
deriving DecidableEq

/-- Observable outcome of CHStore.SendJSON. -/
inductive SendOutcome
  | ok
  | clickhouseError (msg : String)
  | readError (e : String)
  | nilPanic
deriving DecidableEq

/-- CHStore.SendJSON after the POST: the source runs
`defer resp.Body.Close()` and `ioutil.ReadAll(resp.Body)` without checking
the POST error, so a nil response is dereferenced (a runtime fault); with
a response, a status of at least 400 returns the body-carrying error, and
otherwise the ReadAll error (nil on success) is returned.  readErr models
the ReadAll outcome. -/
def SendJSON (post : PostResult) (readErr : Option String) : SendOutcome :=
  match post with
  | PostResult.transportFailure _ => SendOutcome.nilPanic
  | PostResult.response status body =>
    if 400 ≤ status then SendOutcome.clickhouseError ("Clickhouse error: " ++ body)
    else
      match readErr with
      | some e => SendOutcome.readError e
      | none => SendOutcome.ok

/-- GROUP BY characterization: in the merged output, the rows whose key is
a key k occurring in the input are exactly one row, built from the group
of input rows with key k. -/
theorem filter_mergeRows {κ ρ : Type} [DecidableEq κ] (keyOf : ρ → κ)
    (mk : κ → List ρ → ρ) (hmk : ∀ k g, keyOf (mk k g) = k)
    (stage : List ρ) (k : κ) (hk : k ∈ stage.map keyOf) :
    ((dedupKeys (stage.map keyOf)).map
        (fun k' => mk k' (stage.filter (fun r => decide (keyOf r = k'))))).filter
      (fun r => decide (keyOf r = k)) =
    [mk k (stage.filter (fun r => decide (keyOf r = k)))] := by
  rw [filter_map_comm]
  have hcongr : (dedupKeys (stage.map keyOf)).filter
      (fun k' =>
        decide (keyOf (mk k' (stage.filter (fun r => decide (keyOf r = k')))) = k)) =
      (dedupKeys (stage.map keyOf)).filter (fun k' => decide (k' = k)) := by
    apply List.filter_congr
    intro x _
    rw [hmk]
  rw [hcongr,
    nodup_filter_eq_singleton k _ (nodup_dedupKeys _) ((mem_dedupKeys k _).mpr hk)]
  rfl

/-- C2: for every key occurring in the staged batch, the tuple merge step
inserts exactly one permanent row for that key, carrying
last-value(ttl), min(first), max(last) and sum(count) over the group of
staged rows with that key; the individual merge step does the same per
(which, value) key, with no ttl column. -/
theorem update_merge_groups (stage : List TupleRow) (istage : List IndRow)
    (k : String × String × String) (w : Which × String)
    (hk : k ∈ stage.map tupleKey) (hw : w ∈ istage.map indKey) :
    (tupleMergeRows stage).filter (fun r => decide (tupleKey r = k)) =
      [{ query := k.1, type := k.2.1, answer := k.2.2,
         ttl := lastOf ((stage.filter (fun r => decide (tupleKey r = k))).map TupleRow.ttl),
         first := minOf ((stage.filter (fun r => decide (tupleKey r = k))).map TupleRow.first),
         last := maxOf ((stage.filter (fun r => decide (tupleKey r = k))).map TupleRow.last),
         count := sumCounts
           ((stage.filter (fun r => decide (tupleKey r = k))).map TupleRow.count) }] ∧
    (indMergeRows istage).filter (fun r => decide (indKey r = w)) =
      [{ which := w.1, value := w.2,
         first := minOf ((istage.filter (fun r => decide (indKey r = w))).map IndRow.first),
         last := maxOf ((istage.filter (fun r => decide (indKey r = w))).map IndRow.last),
         count := sumCounts
           ((istage.filter (fun r => decide (indKey r = w))).map IndRow.count) }] := by
  constructor
  · exact filter_mergeRows tupleKey mergeTupleGroup (fun _ _ => rfl) stage k hk
  · exact filter_mergeRows indKey mergeIndGroup (fun _ _ => rfl) istage w hw

/-- Concrete staged tuple batch used to evaluate the merge step: two rows
with the same (query, type, answer) key. -/
def stageSample : List TupleRow :=
  [{ query := "ab", type := "A", answer := "x", ttl := 3, first := 10, last := 20, count := 2 },
   { query := "ab", type := "A", answer := "x", ttl := 7, first := 5, last := 30, count := 4 }]

/-- Concrete staged individual batch used to evaluate the merge step. -/
def istageSample : List IndRow :=
  [{ which := Which.Q, value := "ab", first := 10, last := 20, count := 2 }]

/-- C2 witness: the staged sample batch evaluated concretely. -/
theorem update_merge_groups_witness :
    ("ab", "A", "x") ∈ stageSample.map tupleKey ∧
    (Which.Q, "ab") ∈ istageSample.map indKey ∧
    ((tupleMergeRows stageSample).filter
        (fun r => decide (tupleKey r = ("ab", "A", "x"))) =
      [{ query := ("ab", "A", "x").1, type := ("ab", "A", "x").2.1,
         answer := ("ab", "A", "x").2.2,
         ttl := lastOf ((stageSample.filter
           (fun r => decide (tupleKey r = ("ab", "A", "x")))).map TupleRow.ttl),
         first := minOf ((stageSample.filter
           (fun r => decide (tupleKey r = ("ab", "A", "x")))).map TupleRow.first),
         last := maxOf ((stageSample.filter
           (fun r => decide (tupleKey r = ("ab", "A", "x")))).map TupleRow.last),
         count := sumCounts ((stageSample.filter
           (fun r => decide (tupleKey r = ("ab", "A", "x")))).map TupleRow.count) }] ∧
     (indMergeRows istageSample).filter
        (fun r => decide (indKey r = (Which.Q, "ab"))) =
      [{ which := (Which.Q, "ab").1, value := (Which.Q, "ab").2,
         first := minOf ((istageSample.filter
           (fun r => decide (indKey r = (Which.Q, "ab")))).map IndRow.first),
         last := maxOf ((istageSample.filter
           (fun r => decide (indKey r = (Which.Q, "ab")))).map IndRow.last),
         count := sumCounts ((istageSample.filter
           (fun r => decide (indKey r = (Which.Q, "ab")))).map IndRow.count) }]) :=
  ⟨by decide, by decide,
   update_merge_groups stageSample istageSample ("ab", "A", "x") (Which.Q, "ab")
     (by decide) (by decide)⟩

/-- C7: for every argument days, DeleteOld returns a zero deleted-row
count together with the descriptive unsupported-operation error and
leaves the whole store state unchanged. -/
theorem deleteOld_always_fails (s : StoreState) (days : Int) :
    (DeleteOld s days).1 = s ∧ (DeleteOld s days).2.1 = 0 ∧
    (DeleteOld s days).2.2 = some "clickhouse doesn't support delete" :=
  ⟨rfl, rfl, rfl⟩

/-- C9: Close unconditionally calls itself, so for every store value and
every step budget it has not returned a value. -/
theorem close_never_returns (s : StoreState) : ∀ fuel : Nat, Close s fuel = none := by
  intro fuel
  induction fuel with
  | zero => rfl
  | succ n ih => simpa [Close] using ih

/-- C6: with no lookup failure, IsLogIndexed returns (true, no error)
exactly when a ledger row with the exact identifier exists and (false, no
error) when none does; any other lookup failure is propagated as an error
together with a false bool. -/
theorem isLogIndexed_ledger (filenames : List String) (filename e : String) :
    IsLogIndexed filenames none filename = (decide (filename ∈ filenames), none) ∧
    IsLogIndexed filenames (some e) filename = (false, some e) := by
  refine ⟨?_, rfl⟩
  unfold IsLogIndexed
  cases hf : filenames.find? (fun fn => decide (fn = filename)) with
  | none =>
    have hmem : filename ∉ filenames := by
      intro hmem
      have := List.find?_eq_none.mp hf filename hmem
      simp at this
    simp [hmem]
  | some fn =>
    have h1 := List.find?_some hf
    have h2 := List.mem_of_find?_eq_some hf
    simp only [decide_eq_true_eq] at h1
    subst h1
    simp [h2]

/-- C10: a transport-level POST failure leaves SendJSON dereferencing the
absent response, a runtime fault rather than a returned error; the
body-carrying Clickhouse error arises exactly from a response whose
status is at least 400. -/
theorem sendJSON_transport_fault (p : PostResult) (r : Option String) (e msg : String) :
    SendJSON (PostResult.transportFailure e) r = SendOutcome.nilPanic ∧
    (SendJSON p r = SendOutcome.clickhouseError msg ↔
      ∃ status body, p = PostResult.response status body ∧ 400 ≤ status ∧
        msg = "Clickhouse error: " ++ body) := by
  refine ⟨rfl, ?_⟩
  cases p with
  | transportFailure e' => simp [SendJSON]
  | response status body =>
    by_cases h : 400 ≤ status
    · simp only [SendJSON, if_pos h, SendOutcome.clickhouseError.injEq,
        PostResult.response.injEq]
      constructor
      · intro hmsg
        exact ⟨status, body, ⟨rfl, rfl⟩, h, hmsg.symm⟩
      · rintro ⟨s, b, ⟨rfl, rfl⟩, _, hmsg⟩
        exact hmsg.symm
    · have hne : SendJSON (PostResult.response status body) r ≠
          SendOutcome.clickhouseError msg := by
        cases r with
        | none => simp [SendJSON, if_neg h]
        | some e' => simp [SendJSON, if_neg h]
      simp only [hne, false_iff]
      rintro ⟨s, b, ⟨rfl, rfl⟩, hs, _⟩
      exact h hs

/-- C3 counterexample: when only the individual bulk-load fails, the run
returns the individual-stage error yet the tuple merge insert has already
been executed, contrary to the claim that no merge insert runs after a
bulk-load failure. -/
theorem update_merge_after_load_failure_cex :
    (updateRun ⟨true, true, true, true, true, true, false, true⟩).2 =
      some "CHStore.Update individual failed" ∧
    UStep.mergeT ∈ (updateRun ⟨true, true, true, true, true, true, false, true⟩).1 := by
  decide

/-- C3 amended: the tuple merge insert executes exactly when both staging
creates and the tuple bulk-load succeeded, the individual merge insert
exactly when additionally the tuple merge and the individual bulk-load
succeeded (so a staging failure before a merge prevents that merge, while
an individual bulk-load failure aborts only before the individual merge),
and every failing stage is named by the returned error. -/
theorem update_merge_order (o : UOut) :
    (UStep.mergeT ∈ (updateRun o).1 ↔
      (o.createTOk && o.createIOk && o.loadTOk) = true) ∧
    (UStep.mergeI ∈ (updateRun o).1 ↔
      (o.createTOk && o.createIOk && o.loadTOk && o.mergeTOk && o.loadIOk) = true) ∧
    ((updateRun o).2 = some "CHStore.Update failed to create temporary tuples table" ↔
      o.createTOk = false) ∧
    ((updateRun o).2 = some "CHStore.Update failed to create temporary individual table" ↔
      (o.createTOk && !o.createIOk) = true) ∧
    ((updateRun o).2 = some "CHStore.Update tuples failed" ↔
      (o.createTOk && o.createIOk && !o.loadTOk) = true) ∧
    ((updateRun o).2 = some "CHStore.Update individual failed" ↔
      (o.createTOk && o.createIOk && o.loadTOk && o.mergeTOk && !o.loadIOk) = true) := by
  obtain ⟨dT, dI, cT, cI, lT, mT, lI, mI⟩ := o
  cases dT <;> cases dI <;> cases cT <;> cases cI <;> cases lT <;> cases mT <;>
    cases lI <;> cases mI <;> decide

/-- C8: every run of Update starts by dropping both staging tables, the
outcomes of those drops never change the run's behaviour, no drop is
executed after the two initial ones, and a fully successful run ends with
the individual merge insert with no drop of the staging tables. -/
theorem update_staging_drop_frame (o : UOut) :
    (updateRun o).1.take 2 = [UStep.dropT, UStep.dropI] ∧
    updateRun o = updateRun { o with dropTOk := true, dropIOk := true } ∧
    UStep.dropT ∉ (updateRun o).1.drop 2 ∧
    UStep.dropI ∉ (updateRun o).1.drop 2 ∧
    (allOk o = true →
      (updateRun o).1 = [UStep.dropT, UStep.dropI, UStep.createT, UStep.createI,
        UStep.loadT, UStep.mergeT, UStep.loadI, UStep.mergeI] ∧
      (updateRun o).2 = none) := by
  obtain ⟨dT, dI, cT, cI, lT, mT, lI, mI⟩ := o
  cases dT <;> cases dI <;> cases cT <;> cases cI <;> cases lT <;> cases mT <;>
    cases lI <;> cases mI <;> decide

/-- C8 witness: the all-success run evaluated concretely. -/
theorem update_staging_drop_frame_witness :
    allOk ⟨false, false, true, true, true, true, true, true⟩ = true ∧
    ((updateRun ⟨false, false, true, true, true, true, true, true⟩).1 =
      [UStep.dropT, UStep.dropI, UStep.createT, UStep.createI,
       UStep.loadT, UStep.mergeT, UStep.loadI, UStep.mergeI] ∧
     (updateRun ⟨false, false, true, true, true, true, true, true⟩).2 = none) :=
  ⟨by decide,
   (update_staging_drop_frame ⟨false, false, true, true, true, true, true, true⟩).2.2.2.2
     (by decide)⟩

theorem dedupKeys_eq_nil {κ : Type} [DecidableEq κ] :
    ∀ l : List κ, dedupKeys l = [] ↔ l = [] := by
  intro l
  induction l with
  | nil => simp [dedupKeys]
  | cons k ks ih =>
    by_cases hk : k ∈ ks
    · simp only [dedupKeys, if_pos hk, ih]
      constructor
      · rintro rfl; cases hk
      · intro h; cases h
    · simp [dedupKeys, if_neg hk]

/-- The tuple SELECT pipeline returns a row exactly when some table row
passed the WHERE clause. -/
theorem tupleSelect_ne_nil (rows : List TupleRow) :
    reverseQueryRes (sortLe tupleQLe (tupleQGroup rows)) ≠ [] ↔ rows ≠ [] := by
  have hlen : (reverseQueryRes (sortLe tupleQLe (tupleQGroup rows))).length =
      (dedupKeys (rows.map tupleKey)).length := by
    rw [reverseQueryRes, List.length_map, length_sortLe, tupleQGroup, List.length_map]
  constructor
  · intro hne hrows
    subst hrows
    exact hne rfl
  · intro hrows hne
    have : (dedupKeys (rows.map tupleKey)).length = 0 := by
      rw [← hlen, hne]
      rfl
    have := (dedupKeys_eq_nil (rows.map tupleKey)).mp (List.length_eq_zero.mp this)
    exact hrows (List.map_eq_nil_iff.mp this)

/-- The individual SELECT pipeline returns a row exactly when some table
row passed the WHERE clause. -/
theorem indSelect_ne_nil (rows : List IndRow) :
    reverseValueRes (sortLe indQLe (indQGroup rows)) ≠ [] ↔ rows ≠ [] := by
  have hlen : (reverseValueRes (sortLe indQLe (indQGroup rows))).length =
      (dedupKeys (rows.map indKey)).length := by
    rw [reverseValueRes, List.length_map, length_sortLe, indQGroup, List.length_map]
  constructor
  · intro hne hrows
    subst hrows
    exact hne rfl
  · intro hrows hne
    have : (dedupKeys (rows.map indKey)).length = 0 := by
      rw [← hlen, hne]
      rfl
    have := (dedupKeys_eq_nil (rows.map indKey)).mp (List.length_eq_zero.mp this)
    exact hrows (List.map_eq_nil_iff.mp this)

/-- C1 counterexample: on a table with one row whose answer column holds
the literal input "ab", FindTuples returns the row while the variant that
compares the reversed input against both columns returns nothing, so the
answer-column comparison of the source uses the literal input. -/
theorem findTuples_both_reversed_cex :
    FindTuples
      [{ query := "x", type := "A", answer := "ab",
         ttl := 1, first := 1, last := 1, count := 1 }] "ab" ≠
    FindTuplesBothReversed
      [{ query := "x", type := "A", answer := "ab",
         ttl := 1, first := 1, last := 1, count := 1 }] "ab" := by
  decide

/-- C1 amended: FindTuples matches a row exactly when its query column
equals the reversed input or its answer column equals the literal input;
LikeTuples matches exactly when the query column starts with the reversed
input or the answer column starts with the literal input. -/
theorem findTuples_matching_columns (q : String) (r : TupleRow) :
    (FindTuples [r] q ≠ [] ↔ (r.query = Reverse q ∨ r.answer = q)) ∧
    (LikeTuples [r] q ≠ [] ↔
      ((Reverse q).isPrefixOf r.query = true ∨ q.isPrefixOf r.answer = true)) := by
  constructor
  · rw [FindTuples, tupleSelect_ne_nil]
    by_cases h : (r.query = Reverse q ∨ r.answer = q)
    · simp [List.filter, h]
    · simp [List.filter, h]
  · rw [LikeTuples, tupleSelect_ne_nil]
    by_cases h : ((Reverse q).isPrefixOf r.query || q.isPrefixOf r.answer) = true
    · simp only [List.filter, h]
      simp only [Bool.or_eq_true] at h
      simp [h]
    · simp only [List.filter, h]
      simp only [Bool.or_eq_true] at h
      simp [h]

/-- C4: FindIndividual matches a row exactly when it is Answer-typed with
value equal to the literal input or Query-typed with value equal to the
reversed input, and LikeIndividual does the same with prefix matches; in
particular an Answer-typed row is never matched through the reversed
(Query-side) comparison, and vice versa. -/
theorem findIndividual_discriminates (v : String) (r : IndRow) :
    (FindIndividual [r] v ≠ [] ↔
      ((r.which = Which.A ∧ r.value = v) ∨ (r.which = Which.Q ∧ r.value = Reverse v))) ∧
    (LikeIndividual [r] v ≠ [] ↔
      ((r.which = Which.A ∧ v.isPrefixOf r.value = true) ∨
       (r.which = Which.Q ∧ (Reverse v).isPrefixOf r.value = true))) := by
  constructor
  · rw [FindIndividual, indSelect_ne_nil]
    by_cases h : ((r.which = Which.A ∧ r.value = v) ∨
        (r.which = Which.Q ∧ r.value = Reverse v))
    · simp [List.filter, h]
    · simp [List.filter, h]
  · rw [LikeIndividual, indSelect_ne_nil]
    by_cases h : ((r.which = Which.A && v.isPrefixOf r.value) ||
        (r.which = Which.Q && (Reverse v).isPrefixOf r.value)) = true
    · simp only [List.filter, h]
      simp only [Bool.or_eq_true, Bool.and_eq_true, decide_eq_true_eq] at h
      simp [h]
    · simp only [List.filter, h]
      simp only [Bool.or_eq_true, Bool.and_eq_true, decide_eq_true_eq] at h
      simp [h]

/-- Stored-order comparator on tuple results: the ORDER BY runs on the
stored columns, where the query field is the reverse of the returned one. -/
def storedTupleQLe (a b : TupleQRes) : Bool :=
  if Reverse a.query = Reverse b.query then strLe a.answer b.answer
  else strLe (Reverse a.query) (Reverse b.query)

/-- Stored value of a returned individual row: Query-typed values were
reversed back on the way out, Answer-typed values are stored as returned. -/
def storedIndVal (r : IndQRes) : String :=
  if r.which = Which.Q then Reverse r.value else r.value

/-- Stored-order comparator on individual results. -/
def storedIndQLe (a b : IndQRes) : Bool :=
  strLe (storedIndVal a) (storedIndVal b)

/-- Inverse of the output re-reversal on raw tuples rows. -/
def unrevTupleRow (r : TupleRow) : TupleRow := { r with query := Reverse r.query }

theorem chainLe_map {ρ σ : Type} (le : σ → σ → Bool) (f : ρ → σ) :
    ∀ l : List ρ, chainLe le (l.map f) = chainLe (fun a b => le (f a) (f b)) l
  | [] => rfl
  | [_] => rfl
  | x :: y :: t => by
    have ih := chainLe_map le f (y :: t)
    simp only [List.map, chainLe] at ih ⊢
    rw [ih]

theorem chainLe_congr {ρ : Type} (le le' : ρ → ρ → Bool)
    (h : ∀ a b, le a b = le' a b) :
    ∀ l : List ρ, chainLe le l = chainLe le' l
  | [] => rfl
  | [_] => rfl
  | x :: y :: t => by
    simp only [chainLe]
    rw [h x y, chainLe_congr le le' h (y :: t)]

theorem storedTupleQLe_of_rev (a b : TupleQRes) :
    storedTupleQLe { a with query := Reverse a.query } { b with query := Reverse b.query } =
      tupleQLe a b := by
  simp [storedTupleQLe, tupleQLe, reverse_reverse]

theorem storedIndVal_of_rev (r : IndQRes) :
    storedIndVal (if r.which = Which.Q then { r with value := Reverse r.value } else r) =
      r.value := by
  by_cases h : r.which = Which.Q
  · simp [storedIndVal, h, reverse_reverse]
  · simp [storedIndVal, h]

/-- A tuple-result pipeline ending in reverseQueryRes is chain-ordered by
the stored comparator exactly when the pre-output list is chain-ordered by
the plain comparator. -/
theorem chainLe_stored_reverseQueryRes (l : List TupleQRes) :
    chainLe storedTupleQLe (reverseQueryRes l) = chainLe tupleQLe l := by
  rw [reverseQueryRes, chainLe_map]
  exact chainLe_congr _ _ (fun a b => storedTupleQLe_of_rev a b) l

/-- An individual-result pipeline ending in reverseValueRes is
chain-ordered by the stored comparator exactly when the pre-output list is
chain-ordered by the plain comparator. -/
theorem chainLe_stored_reverseValueRes (l : List IndQRes) :
    chainLe storedIndQLe (reverseValueRes l) = chainLe indQLe l := by
  rw [reverseValueRes, chainLe_map]
  apply chainLe_congr
  intro a b
  simp only [storedIndQLe, indQLe, storedIndVal_of_rev]

/-- C5 counterexample: FindQueryTuples applies no ORDER BY, so two
matching rows stored in descending answer order come back unsorted; and
FindTuples sorts by the stored reversed query, so after the output
re-reversal the visible queries are not in ascending order. -/
theorem query_result_order_cex :
    chainLe tupleRowLe (FindQueryTuples
      [{ query := "q", type := "A", answer := "b",
         ttl := 1, first := 1, last := 1, count := 1 },
       { query := "q", type := "A", answer := "a",
         ttl := 1, first := 1, last := 1, count := 1 }] "q") = false ∧
    chainLe tupleQLe (FindTuples
      [{ query := "ab", type := "A", answer := "x",
         ttl := 1, first := 1, last := 1, count := 1 },
       { query := "ba", type := "A", answer := "x",
         ttl := 1, first := 1, last := 1, count := 1 }] "x") = false := by
  decide

/-- C5 amended: the merging lookups return rows ascending in the stored
sort keys, namely (reversed query, answer) for FindTuples and LikeTuples
and the stored value (reversed for Query-typed rows) for FindIndividual
and LikeIndividual, while FindQueryTuples applies no ordering and returns
matching rows in table order. -/
theorem query_result_order (tuples : List TupleRow) (individual : List IndRow)
    (q v : String) :
    chainLe storedTupleQLe (FindTuples tuples q) = true ∧
    chainLe storedTupleQLe (LikeTuples tuples q) = true ∧
    chainLe storedIndQLe (FindIndividual individual v) = true ∧
    chainLe storedIndQLe (LikeIndividual individual v) = true ∧
    List.Sublist ((FindQueryTuples tuples q).map unrevTupleRow) tuples := by
  refine ⟨?_, ?_, ?_, ?_, ?_⟩
  · rw [FindTuples, chainLe_stored_reverseQueryRes]
    exact chainLe_sortLe tupleQLe tupleQLe_total _
  · rw [LikeTuples, chainLe_stored_reverseQueryRes]
    exact chainLe_sortLe tupleQLe tupleQLe_total _
  · rw [FindIndividual, chainLe_stored_reverseValueRes]
    exact chainLe_sortLe indQLe indQLe_total _
  · rw [LikeIndividual, chainLe_stored_reverseValueRes]
    exact chainLe_sortLe indQLe indQLe_total _
  · have hmap : (FindQueryTuples tuples q).map unrevTupleRow =
        tuples.filter (fun r => decide (r.query = Reverse q)) := by
      rw [FindQueryTuples, reverseQueryRows, List.map_map]
      have hid : ∀ r : TupleRow,
          unrevTupleRow { r with query := Reverse r.query } = r := by
        intro r
        simp [unrevTupleRow, reverse_reverse]
      calc (tuples.filter (fun r => decide (r.query = Reverse q))).map
            (unrevTupleRow ∘ fun r => { r with query := Reverse r.query })
          = (tuples.filter (fun r => decide (r.query = Reverse q))).map id := by
            apply List.map_congr_left
            intro r _
            exact hid r
        _ = tuples.filter (fun r => decide (r.query = Reverse q)) := List.map_id _
    rw [hmap]
    exact List.filter_sublist _

end BroPdns
